import Mathlib

/-! Shallow embedding of `src/ducktracker/ducktracker_convert.py`: home
location inference (`find_home`), the shared geo/time predicates
(`is_same_place`, `within_tsi`) and the per-user dwell-time segmentation
loop in the body of `write_out`.

Conventions of the embedding:
* A coordinate string already reduced to 4 decimal places by
  `'%.4f' % float(s)` is represented by its scaled integer value, in units
  of 10⁻⁴ degrees; `fmt4` renders that integer back into the decimal
  string the Python code slices for anonymization.  A missing
  (empty-string) latitude or longitude is `none`.
* `float(...)` comparisons between such decimal strings are modelled at two
  levels.  `is_same_place` is the exact-rational idealization of the
  source's IEEE-double comparison; every coordinate the program compares
  (4-decimal strings, the `(-1, -1)` sentinel, the home pair) lies on the
  10⁻⁴ grid, where it coincides with the integer test `is_same_place4`
  (lemma `is_same_place4_eq`), and the segmentation loop is stated over the
  scaled integers so that it evaluates on concrete inputs.  The doubles and
  the exact values agree except within double rounding error of the margin
  boundary; the bit-accurate binary64 model (`fl`, `is_same_place_float`)
  is used to settle the behaviour exactly at the tolerance boundary, where
  the two differ for some inputs.
* A timestamp key `"YYYY-MM-DD HH:MM:SS"` is represented by its parsed
  components (`DateTime`).  `datetime` subtraction is modelled by
  `toSecs` (proleptic-Gregorian day number times 86400 plus the second of
  the day, the same ordinal arithmetic CPython's `datetime` uses), and the
  `ValueError` that `strptime` raises when `write_out` passes the initial
  empty `prev_date`/`prev_time` strings to `within_tsi` is modelled by
  `Except.error`.
* The two `randint(0, 9)` draws of `write_out` are explicit `Fin 10`
  parameters of `writeUser`.
-/

deriving instance DecidableEq for Except

namespace Ducktracker

/-- Global temporal sampling interval in minutes (`TSI = 5`, line 17). -/
def TSI : ℕ := 5

/-- Parsed components of a timestamp key `"YYYY-MM-DD HH:MM:SS"`. -/
structure DateTime where
  year : ℕ
  month : ℕ
  day : ℕ
  hour : ℕ
  minute : ℕ
  second : ℕ
deriving DecidableEq, Repr

/-- Proleptic-Gregorian day number of a civil date (Hinnant's
`days_from_civil`); CPython's `datetime` subtraction computes exactly the
difference of this ordinal, scaled to seconds by `toSecs`. -/
def daysFromCivil (y m d : ℤ) : ℤ :=
  let y2 := if m ≤ 2 then y - 1 else y
  let era := (if 0 ≤ y2 then y2 else y2 - 399) / 400
  let yoe := y2 - era * 400
  let doy := (153 * ((m + 9) % 12) + 2) / 5 + d - 1
  let doe := yoe * 365 + yoe / 4 - yoe / 100 + doy
  era * 146097 + doe

/-- Seconds-since-epoch reading of a timestamp; `(after - before).total_seconds()`
in `within_tsi` (line 72) is `toSecs after - toSecs before`. -/
def toSecs (t : DateTime) : ℤ :=
  daysFromCivil t.year t.month t.day * 86400 +
    t.hour * 3600 + t.minute * 60 + t.second

/-- `within_tsi` (lines 56-74): true iff the elapsed seconds from the
`before` timestamp to the `after` timestamp are at most `2 * TSI` minutes. -/
def within_tsi (before after : DateTime) : Bool :=
  decide (toSecs after - toSecs before ≤ (TSI : ℤ) * 60 * 2)

/-- Exact rational value of a scaled (10⁻⁴ units) coordinate, i.e. the value
`float` recovers from its 4-decimal string. -/
def toQ (v : ℤ) : ℚ := (v : ℚ) / 10000

/-- The tolerance of `is_same_place` (`margin = .0002`, line 88). -/
def margin : ℚ := 2 / 10000

/-- Python's `abs` on an exact rational value. -/
def qabs (x : ℚ) : ℚ := if x < 0 then -x else x

/-- `is_same_place` (lines 77-93) over the exact values of its two
coordinate pairs: both the latitude delta and the longitude delta are at
most `margin` in absolute value.  This is the exact-value idealization of
the source's IEEE-double comparison: the doubles agree with it except
within double rounding error of the margin boundary (the bit-accurate
model is `is_same_place_float` below, and the two differ for some rounded
deltas of exactly 0.0002). -/
def is_same_place (latlon1 latlon2 : ℚ × ℚ) : Bool :=
  let same_lat := decide (qabs (latlon1.1 - latlon2.1) ≤ margin)
  let same_lon := decide (qabs (latlon1.2 - latlon2.2) ≤ margin)
  same_lat && same_lon

/-- `is_same_place` restricted to the 10⁻⁴ grid every coordinate of the
program lies on, in scaled units (the `.0002` margin is 2 units); equal to
the exact-value `is_same_place` there by `is_same_place4_eq`, and sharing
its boundary idealization: the source's doubles reject some exact-2-unit
deltas that this test accepts (see `is_same_place_float`). -/
def is_same_place4 (latlon1 latlon2 : ℤ × ℤ) : Bool :=
  decide ((latlon1.1 - latlon2.1).natAbs ≤ 2) &&
    decide ((latlon1.2 - latlon2.2).natAbs ≤ 2)

/-- Python's `abs` agrees with the absolute value. -/
theorem qabs_eq_abs (x : ℚ) : qabs x = |x| := by
  unfold qabs
  rcases lt_or_le x 0 with h | h
  · rw [if_pos h, abs_of_neg h]
  · rw [if_neg (not_lt.mpr h), abs_of_nonneg h]

/-- On the 10⁻⁴ grid the exact-value predicate `is_same_place` is the
integer test `is_same_place4`. -/
theorem is_same_place4_eq (a b : ℤ × ℤ) :
    is_same_place (toQ a.1, toQ a.2) (toQ b.1, toQ b.2) = is_same_place4 a b := by
  have h10 : (0 : ℚ) < 10000 := by norm_num
  have key : ∀ x y : ℤ, (qabs (toQ x - toQ y) ≤ margin) ↔ ((x - y).natAbs ≤ 2) := by
    intro x y
    rw [qabs_eq_abs]
    unfold toQ margin
    rw [div_sub_div_same, abs_div, abs_of_pos h10, div_le_div_iff_of_pos_right h10,
      show ((x : ℚ) - y) = ((x - y : ℤ) : ℚ) by push_cast; ring, abs_le]
    constructor
    · rintro ⟨h1, h2⟩
      have h1i : (-2 : ℤ) ≤ x - y := by exact_mod_cast h1
      have h2i : (x - y : ℤ) ≤ 2 := by exact_mod_cast h2
      omega
    · intro h
      have h1i : (-2 : ℤ) ≤ x - y := by omega
      have h2i : (x - y : ℤ) ≤ 2 := by omega
      exact ⟨by exact_mod_cast h1i, by exact_mod_cast h2i⟩
  unfold is_same_place is_same_place4
  simp only [decide_eq_decide.mpr (key a.1 b.1), decide_eq_decide.mpr (key a.2 b.2)]

/-- Round half to even of a rational to an integer (IEEE-754 tie-breaking). -/
def rhe (q : ℚ) : ℤ :=
  if q - ⌊q⌋ < 1 / 2 then ⌊q⌋
  else if 1 / 2 < q - ⌊q⌋ then ⌊q⌋ + 1
  else if ⌊q⌋ % 2 = 0 then ⌊q⌋ else ⌊q⌋ + 1

/-- IEEE-754 binary64 rounding (to nearest, ties to even) of an exact
rational value, for the normal range; the program's coordinate values stay
far from the subnormal and overflow ranges.  CPython's `float(string)`
conversion and every float arithmetic operation are correctly rounded,
i.e. produce `fl` of the exact result. -/
def fl (q : ℚ) : ℚ :=
  if q = 0 then 0
  else
    (if q < 0 then -1 else 1) *
      (rhe (|q| * 2 ^ ((52 : ℤ) - Int.log 2 |q|)) : ℚ) * 2 ^ (Int.log 2 |q| - 52)

/-- `is_same_place` (lines 77-93) computed bit-accurately, the way the
source actually evaluates it over IEEE binary64 doubles: each operand of
the subtraction is the correctly rounded double of the coordinate string
(`float(latlon[i])`), the subtraction itself is correctly rounded, `abs`
and `<=` are exact on doubles, and the margin is the double nearest the
literal `.0002`. -/
def is_same_place_float (latlon1 latlon2 : ℚ × ℚ) : Bool :=
  decide (qabs (fl (fl latlon1.1 - fl latlon2.1)) ≤ fl (2 / 10000)) &&
    decide (qabs (fl (fl latlon1.2 - fl latlon2.2)) ≤ fl (2 / 10000))

/-- One measurement entry of a user's history: the parsed timestamp key and
the two coordinate strings, each either empty (`none`) or holding a value
that rounds to the given multiple of 10⁻⁴ (`some`). -/
structure Ping where
  latitude : Option ℤ
  longitude : Option ℤ
  stamp : DateTime
deriving DecidableEq, Repr

/-- The `latlons` list built by `find_home` (lines 29-43): rounded
coordinates of valid pings in history order; entries with an empty latitude
or longitude are skipped. -/
def latlonsOf (h : List Ping) : List (ℤ × ℤ) :=
  h.filterMap fun p =>
    match p.latitude, p.longitude with
    | some la, some lo => some (la, lo)
    | _, _ => none

/-- Highest occurrence count among the elements of a list. -/
def maxCount (l : List (ℤ × ℤ)) : ℕ :=
  l.foldr (fun x acc => max (l.count x) acc) 0

/-- `statistics.mode` as the source relies on it (Python ≤ 3.7, matching
the comment on lines 48-49 and the catch-all on line 50): the unique value
attaining the highest occurrence count, or an error (`none`) when the list
is empty or several values tie for most frequent. -/
def modeOpt (l : List (ℤ × ℤ)) : Option (ℤ × ℤ) :=
  match l.dedup.filter (fun x => l.count x == maxCount l) with
  | [m] => some m
  | _ => none

/-- `find_home` (lines 20-53): the unique most frequent valid rounded
coordinate, falling back to the first valid coordinate when `mode` fails;
`none` models the uncaught `IndexError` on a history with no valid ping. -/
def find_home (h : List Ping) : Option (ℤ × ℤ) :=
  let latlons := latlonsOf h
  match modeOpt latlons with
  | some m => some m
  | none => latlons.head?

/-- The decimal string `'%.4f'` produces for the exact value `v / 10000`
(lines 41-42 and 135-136): sign, integer part, point, 4 fractional digits. -/
def fmt4 (v : ℤ) : String :=
  let n := v.natAbs
  let frac := toString (n % 10000)
  (if v < 0 then "-" else "") ++ toString (n / 10000) ++ "." ++
    String.mk (List.replicate (4 - frac.length) '0') ++ frac

/-- One output line of `write_out` (line 158): user id, timestamp, the two
emitted coordinate strings and `time_at_loc`. -/
structure Row where
  user : String
  stamp : DateTime
  latitude : String
  longitude : String
  timeAtLoc : ℕ
deriving DecidableEq, Repr

/-- The per-user mutable state of `write_out` (lines 111-114):
`time_at_loc`, the previous date/time strings (`none` for the initial empty
strings) and `prev_latlon` in scaled units; the initial sentinel `(-1, -1)`
is `(-10000, -10000)` in units of 10⁻⁴. -/
structure SegState where
  time_at_loc : ℕ
  prev : Option DateTime
  prev_latlon : ℤ × ℤ
deriving DecidableEq, Repr

/-- The state set up at the top of the user loop (lines 111-114). -/
def initState : SegState := ⟨0, none, (-10000, -10000)⟩

/-- One iteration of the inner entry loop of `write_out` (lines 121-159):
skip the entry when a coordinate string is empty, otherwise update
`time_at_loc`/`prev_latlon` by the same-place and `within_tsi` tests, record
the current timestamp, anonymize the coordinate when it matches `home`, and
emit one row.  Calling `within_tsi` with the initial empty previous strings
(`prev = none`) raises in `strptime`, modelled as `Except.error`. -/
def stepUser (user : String) (home : ℤ × ℤ) (anonLat anonLon : String)
    (st : SegState) (p : Ping) : Except Unit (SegState × Option Row) :=
  match p.latitude, p.longitude with
  | some la, some lo =>
    let branch : Except Unit (ℕ × (ℤ × ℤ)) :=
      if is_same_place4 (la, lo) st.prev_latlon then
        match st.prev with
        | none => Except.error ()
        | some b =>
          Except.ok
            (if within_tsi b p.stamp then st.time_at_loc + TSI else 0,
              st.prev_latlon)
      else
        Except.ok (0, (la, lo))
    match branch with
    | Except.error e => Except.error e
    | Except.ok (t, pl) =>
      let outLat := if is_same_place4 (la, lo) home then anonLat else fmt4 la
      let outLon := if is_same_place4 (la, lo) home then anonLon else fmt4 lo
      Except.ok (⟨t, some p.stamp, pl⟩, some ⟨user, p.stamp, outLat, outLon, t⟩)
  | _, _ => Except.ok (st, none)

/-- The inner entry loop of `write_out` run to completion, collecting the
emitted rows in order together with the final state. -/
def runUser (user : String) (home : ℤ × ℤ) (anonLat anonLon : String) :
    SegState → List Ping → Except Unit (List Row × SegState)
  | st, [] => Except.ok ([], st)
  | st, p :: ps =>
    match stepUser user home anonLat anonLon st p with
    | Except.error e => Except.error e
    | Except.ok (st2, r) =>
      match runUser user home anonLat anonLon st2 ps with
      | Except.error e => Except.error e
      | Except.ok (rows, stF) => Except.ok (r.toList ++ rows, stF)

/-- The body of the per-user loop of `write_out` (lines 110-159): infer the
home, draw the anonymized home pair once (`d1`, `d2` are the two
`randint(0, 9)` draws of lines 117-118, spliced over the last character of
each home string), then scan the history from the initial state.  A history
with no valid ping (uncaught `IndexError` inside `find_home`) and a
`strptime` failure both surface as `Except.error`. -/
def writeUser (user : String) (d1 d2 : Fin 10) (h : List Ping) :
    Except Unit (List Row) :=
  match find_home h with
  | none => Except.error ()
  | some home =>
    let anonLat := (fmt4 home.1).dropRight 1 ++ String.mk [Nat.digitChar d1.val]
    let anonLon := (fmt4 home.2).dropRight 1 ++ String.mk [Nat.digitChar d2.val]
    Except.map (fun pr => pr.1) (runUser user home anonLat anonLon initState h)

/-- Anonymization-free image of one emitted row: the real rounded
coordinate of the ping together with the dwell value and timestamp.  Used
to state that dwell bookkeeping is independent of anonymization. -/
structure RealRow where
  stamp : DateTime
  coord : ℤ × ℤ
  timeAtLoc : ℕ
deriving DecidableEq, Repr

/-- The entry step of `write_out` with the home-anonymization of the output
row stripped: identical state handling to `stepUser`, but the emitted image
keeps the real rounded coordinate. -/
def stepReal (st : SegState) (p : Ping) : Except Unit (SegState × Option RealRow) :=
  match p.latitude, p.longitude with
  | some la, some lo =>
    let branch : Except Unit (ℕ × (ℤ × ℤ)) :=
      if is_same_place4 (la, lo) st.prev_latlon then
        match st.prev with
        | none => Except.error ()
        | some b =>
          Except.ok
            (if within_tsi b p.stamp then st.time_at_loc + TSI else 0,
              st.prev_latlon)
      else
        Except.ok (0, (la, lo))
    match branch with
    | Except.error e => Except.error e
    | Except.ok (t, pl) =>
      Except.ok (⟨t, some p.stamp, pl⟩, some ⟨p.stamp, (la, lo), t⟩)
  | _, _ => Except.ok (st, none)

/-- `stepReal` run over a whole history. -/
def runReal : SegState → List Ping → Except Unit (List RealRow × SegState)
  | st, [] => Except.ok ([], st)
  | st, p :: ps =>
    match stepReal st p with
    | Except.error e => Except.error e
    | Except.ok (st2, r) =>
      match runReal st2 ps with
      | Except.error e => Except.error e
      | Except.ok (rows, stF) => Except.ok (r.toList ++ rows, stF)

/-- Specification-side reading of one emitted row, following the spec's
home-anonymization clause: a row whose real rounded coordinate matches
`home` under the same-coordinate predicate carries the fixed anonymized
pair, any other row carries the true rounded coordinate strings; timestamp
and dwell value are taken from the real row unchanged. -/
def outRow (user : String) (home : ℤ × ℤ) (anonLat anonLon : String)
    (r : RealRow) : Row :=
  if is_same_place4 r.coord home then
    ⟨user, r.stamp, anonLat, anonLon, r.timeAtLoc⟩
  else
    ⟨user, r.stamp, fmt4 r.coord.1, fmt4 r.coord.2, r.timeAtLoc⟩

/-- Every ping in the list is at rounded coordinate `(la, lo)` and is
stamped exactly `TSI` minutes after the previous stamp, starting from `b`. -/
def spacedB (la lo : ℤ) : DateTime → List Ping → Bool
  | _, [] => true
  | b, p :: ps =>
    p.latitude == some la && p.longitude == some lo &&
      toSecs p.stamp - toSecs b == (TSI : ℤ) * 60 && spacedB la lo p.stamp ps

/-- Timestamps reused by the concrete instantiations below. -/
def t900 : DateTime := ⟨2023, 1, 1, 9, 0, 0⟩

/-- Five minutes after `t900`. -/
def t905 : DateTime := ⟨2023, 1, 1, 9, 5, 0⟩

/-- Ten minutes (exactly `2 * TSI`) after `t900`. -/
def t910 : DateTime := ⟨2023, 1, 1, 9, 10, 0⟩

/-- Ten minutes and one second after `t900`. -/
def t911 : DateTime := ⟨2023, 1, 1, 9, 10, 1⟩

/-- The grid predicate is reflexive. -/
theorem same4_refl (a : ℤ × ℤ) : is_same_place4 a a = true := by
  simp [is_same_place4]

/-- `outRow` never changes the dwell value of a row. -/
theorem outRow_time (u : String) (home : ℤ × ℤ) (aLat aLon : String)
    (r : RealRow) : (outRow u home aLat aLon r).timeAtLoc = r.timeAtLoc := by
  unfold outRow
  split <;> rfl

/-- Mapping under `Option.toList`. -/
theorem toList_map {α β : Type} (f : α → β) (o : Option α) :
    (o.map f).toList = o.toList.map f := by
  cases o <;> rfl

/-- The code's entry step is the anonymization-free step with `outRow`
applied to the emitted image: the state (and so all dwell bookkeeping and
`prev_latlon` comparisons) never depends on the anonymized strings. -/
theorem step_eq (u : String) (home : ℤ × ℤ) (aLat aLon : String)
    (st : SegState) (p : Ping) :
    stepUser u home aLat aLon st p =
      Except.map (fun x => (x.1, x.2.map (outRow u home aLat aLon)))
        (stepReal st p) := by
  obtain ⟨plat, plon, pdt⟩ := p
  cases plat with
  | none => cases plon <;> simp [stepUser, stepReal, Except.map]
  | some la =>
    cases plon with
    | none => simp [stepUser, stepReal, Except.map]
    | some lo =>
      simp only [stepUser, stepReal]
      by_cases hs : is_same_place4 (la, lo) st.prev_latlon = true
      · simp only [hs, if_true]
        cases st.prev with
        | none => simp [Except.map]
        | some b =>
          by_cases hh : is_same_place4 (la, lo) home = true <;>
            simp [Except.map, outRow, hh]
      · simp only [hs, if_false, Bool.false_eq_true]
        by_cases hh : is_same_place4 (la, lo) home = true <;>
          simp [Except.map, outRow, hh, hs]

/-- `run_eq` lifts `step_eq` over a whole history: the rows the code emits
are exactly the anonymization-free rows passed through `outRow`, and the
final state is identical. -/
theorem run_eq (u : String) (home : ℤ × ℤ) (aLat aLon : String)
    (ps : List Ping) (st : SegState) :
    runUser u home aLat aLon st ps =
      Except.map (fun pr => (pr.1.map (outRow u home aLat aLon), pr.2))
        (runReal st ps) := by
  induction ps generalizing st with
  | nil => simp [runUser, runReal, Except.map]
  | cons p ps ih =>
    simp only [runUser, runReal, step_eq u home aLat aLon st p]
    cases hsp : stepReal st p with
    | error e => simp [Except.map]
    | ok st2r =>
      obtain ⟨st2, r⟩ := st2r
      simp only [Except.map, ih st2]
      cases hrr : runReal st2 ps with
      | error e => simp [Except.map]
      | ok pr => simp [Except.map, toList_map]

/-- Arithmetic shape of the dwell sequence: shifting the start of the
range by one step. -/
theorem range_shift (n t0 : ℕ) :
    (List.range (n + 1)).map (fun i => t0 + (i + 1) * TSI) =
      (t0 + TSI) :: (List.range n).map (fun i => (t0 + TSI) + (i + 1) * TSI) := by
  rw [List.range_succ_eq_map, List.map_cons, List.map_map]
  refine congrArg₂ List.cons (by omega) ?_
  exact congrArg (fun f => List.map f (List.range n))
    (funext fun i => by show t0 + (i + 1 + 1) * TSI = t0 + TSI + (i + 1) * TSI; ring)

/-- A run of pings at the fixed coordinate `(la, lo)`, each exactly `TSI`
minutes after the previous stamp, accumulates dwell `t0 + TSI, t0 + 2*TSI, …`
starting from a state already at that coordinate with dwell `t0`. -/
theorem dwell_run (la lo : ℤ) (ps : List Ping) :
    ∀ (b : DateTime) (t0 : ℕ), spacedB la lo b ps = true →
    Except.map (fun pr => pr.1.map RealRow.timeAtLoc)
        (runReal ⟨t0, some b, (la, lo)⟩ ps) =
      Except.ok ((List.range ps.length).map fun i => t0 + (i + 1) * TSI) := by
  induction ps with
  | nil => intro b t0 _; simp [runReal, Except.map]
  | cons p ps ih =>
    intro b t0 hsp
    obtain ⟨plat, plon, pdt⟩ := p
    simp only [spacedB, Bool.and_eq_true, beq_iff_eq] at hsp
    obtain ⟨⟨⟨h1, h2⟩, h3⟩, h4⟩ := hsp
    subst h1
    subst h2
    have hw : within_tsi b pdt = true := by
      simp only [within_tsi, decide_eq_true_eq]
      rw [h3]
      norm_num [TSI]
    simp only [runReal, stepReal, same4_refl, if_true, hw]
    cases hrr : runReal ⟨t0 + TSI, some pdt, (la, lo)⟩ ps with
    | error e =>
      have hd := ih pdt (t0 + TSI) h4
      rw [hrr] at hd
      simp [Except.map] at hd
    | ok pr =>
      have hd := ih pdt (t0 + TSI) h4
      rw [hrr] at hd
      simp only [Except.map, Except.ok.injEq] at hd
      simp only [Except.map, List.length_cons, Option.toList_some, List.singleton_append,
        List.map_cons, hd]
      rw [range_shift]

/-- C2: the claim asserts that the initial `prev_latlon` sentinel can never
equal a valid rounded coordinate, so that the first valid ping of every
user takes the New-location branch and is emitted with dwell 0.  The code's
sentinel `(-1, -1)` is the real coordinate latitude -1.0000, longitude
-1.0000: a history whose first valid ping is there takes the
Same-location branch and calls `within_tsi` on the empty initial
`prev_date`/`prev_time` strings, so `strptime` raises and no row is
emitted; this evaluation exhibits the aborting run. -/
theorem sentinel_ping_crash :
    writeUser "u" 0 0 [⟨some (-10000), some (-10000), t900⟩] =
      Except.error () := by decide

/-- C3: with the home inferred, the per-user pass of `write_out` is exactly
the anonymization-free segmentation followed by `outRow` with the single
anonymized pair built from the home strings by replacing only their final
character with the drawn digits: rows matching home carry that one fixed
pair, all other rows carry the true rounded strings, and the dwell state
(`runReal`) never depends on the anonymized values. -/
theorem home_anonymization (u : String) (d1 d2 : Fin 10) (h : List Ping)
    (home : ℤ × ℤ) (hh : find_home h = some home) :
    writeUser u d1 d2 h =
      Except.map (fun pr => pr.1.map (outRow u home
          ((fmt4 home.1).dropRight 1 ++ String.mk [Nat.digitChar d1.val])
          ((fmt4 home.2).dropRight 1 ++ String.mk [Nat.digitChar d2.val])))
        (runReal initState h) := by
  unfold writeUser
  rw [hh]
  simp only [run_eq]
  cases runReal initState h <;> simp [Except.map]

/-- Witness for C3 at a three-ping history whose unique mode is
`(40.0000, -75.0000)`, with digit draws 3 and 7. -/
theorem home_anonymization_witness :
    writeUser "u" 3 7
        [⟨some 400000, some (-750000), t900⟩, ⟨some 400000, some (-750000), t905⟩,
          ⟨some 410000, some (-740000), t910⟩] =
      Except.map (fun pr => pr.1.map (outRow "u" (400000, -750000)
          ((fmt4 (400000 : ℤ)).dropRight 1 ++ String.mk [Nat.digitChar (3 : Fin 10).val])
          ((fmt4 (-750000 : ℤ)).dropRight 1 ++ String.mk [Nat.digitChar (7 : Fin 10).val])))
        (runReal initState
          [⟨some 400000, some (-750000), t900⟩, ⟨some 400000, some (-750000), t905⟩,
            ⟨some 410000, some (-740000), t910⟩]) :=
  home_anonymization "u" 3 7 _ (400000, -750000) (by decide)

/-- C4: starting from any state whose `prev_latlon` is not within tolerance
of `(la, lo)`, a run of `N = rest.length + 1` consecutive valid pings at
the one rounded coordinate `(la, lo)`, each stamped exactly `TSI` minutes
after the previous one, is emitted with dwell values
`0, TSI, 2*TSI, …, (N-1)*TSI`; the first occupancy of the new location
always starts at 0. -/
theorem dwell_accumulation (u : String) (home : ℤ × ℤ) (aLat aLon : String)
    (st : SegState) (p0 : Ping) (rest : List Ping) (la lo : ℤ)
    (hla : p0.latitude = some la) (hlo : p0.longitude = some lo)
    (hnew : is_same_place4 (la, lo) st.prev_latlon = false)
    (hrest : spacedB la lo p0.stamp rest = true) :
    Except.map (fun pr => pr.1.map Row.timeAtLoc)
        (runUser u home aLat aLon st (p0 :: rest)) =
      Except.ok ((List.range (rest.length + 1)).map fun i => i * TSI) := by
  have hcomp : ∀ l : List RealRow,
      (l.map (outRow u home aLat aLon)).map Row.timeAtLoc = l.map RealRow.timeAtLoc := by
    intro l
    rw [List.map_map]
    exact congrArg (fun f => List.map f l)
      (funext fun r => outRow_time u home aLat aLon r)
  obtain ⟨plat, plon, pdt⟩ := p0
  subst hla
  subst hlo
  rw [run_eq]
  simp only [runReal, stepReal, hnew, Bool.false_eq_true, if_false]
  cases hrr : runReal ⟨0, some pdt, (la, lo)⟩ rest with
  | error e =>
    have hd := dwell_run la lo rest pdt 0 hrest
    rw [hrr] at hd
    simp [Except.map] at hd
  | ok pr =>
    have hd := dwell_run la lo rest pdt 0 hrest
    rw [hrr] at hd
    simp only [Except.map, Except.ok.injEq] at hd
    simp only [Except.map, Option.toList_some, List.singleton_append, List.map_cons, hcomp,
      outRow_time, hd]
    rw [List.range_succ_eq_map, List.map_cons, List.map_map]
    exact congrArg Except.ok (congrArg₂ List.cons (Nat.zero_mul TSI).symm
      (congrArg (fun f => List.map f (List.range rest.length))
        (funext fun i => by show 0 + (i + 1) * TSI = (i + 1) * TSI; ring)))

/-- Witness for C4: three pings at `(40.0000, -75.0000)` spaced exactly
five minutes apart, scanned from the initial state, yield dwell values
`0, 5, 10`. -/
theorem dwell_accumulation_witness :
    Except.map (fun pr => pr.1.map Row.timeAtLoc)
        (runUser "u" (0, 0) "a" "b" initState
          [⟨some 400000, some (-750000), t900⟩, ⟨some 400000, some (-750000), t905⟩,
            ⟨some 400000, some (-750000), t910⟩]) =
      Except.ok ((List.range 3).map fun i => i * TSI) :=
  dwell_accumulation "u" (0, 0) "a" "b" initState _ _ 400000 (-750000)
    rfl rfl (by decide) (by decide)

/-- C10: the drawn digit can equal the digit it replaces, in which case the
anonymized home pair is character-for-character the true home strings: with
both draws 0 and home `(40.0000, -75.0000)`, the emitted home row carries
exactly `fmt4` of the real home coordinates. -/
theorem anonymized_digits_can_restore_home :
    writeUser "u" 0 0 [⟨some 400000, some (-750000), t900⟩] =
      Except.ok [⟨"u", t900, fmt4 400000, fmt4 (-750000), 0⟩] := by decide

/-- C1: when two distinct valid rounded coordinates both attain the highest
occurrence count (so no strictly most frequent coordinate exists, which
includes the all-distinct case), `mode` fails and `find_home` returns the
chronologically first valid coordinate of the history. -/
theorem find_home_tie_first (h : List Ping) (a b : ℤ × ℤ)
    (ha : a ∈ latlonsOf h) (hb : b ∈ latlonsOf h) (hab : a ≠ b)
    (hca : (latlonsOf h).count a = maxCount (latlonsOf h))
    (hcb : (latlonsOf h).count b = maxCount (latlonsOf h)) :
    find_home h = (latlonsOf h).head? ∧ (latlonsOf h).head?.isSome = true := by
  have hmode : modeOpt (latlonsOf h) = none := by
    have hmema : a ∈ (latlonsOf h).dedup.filter
        (fun x => (latlonsOf h).count x == maxCount (latlonsOf h)) :=
      List.mem_filter.mpr ⟨List.mem_dedup.mpr ha, by simp [hca]⟩
    have hmemb : b ∈ (latlonsOf h).dedup.filter
        (fun x => (latlonsOf h).count x == maxCount (latlonsOf h)) :=
      List.mem_filter.mpr ⟨List.mem_dedup.mpr hb, by simp [hcb]⟩
    unfold modeOpt
    cases hf : (latlonsOf h).dedup.filter
        (fun x => (latlonsOf h).count x == maxCount (latlonsOf h)) with
    | nil => rfl
    | cons m tl =>
      cases tl with
      | nil =>
        rw [hf] at hmema hmemb
        simp only [List.mem_singleton] at hmema hmemb
        exact absurd (hmema.trans hmemb.symm) hab
      | cons m2 tl2 => rfl
  refine ⟨by simp [find_home, hmode], ?_⟩
  cases hl : latlonsOf h with
  | nil => rw [hl] at ha; simp at ha
  | cons x xs => simp

/-- Witness for C1: a two-ping history whose two valid coordinates tie with
count 1 each; `find_home` returns the first. -/
theorem find_home_tie_first_witness :
    find_home [⟨some 400000, some (-750000), t900⟩, ⟨some 410000, some (-740000), t905⟩] =
      (latlonsOf [⟨some 400000, some (-750000), t900⟩,
        ⟨some 410000, some (-740000), t905⟩]).head? ∧
    (latlonsOf [⟨some 400000, some (-750000), t900⟩,
      ⟨some 410000, some (-740000), t905⟩]).head?.isSome = true :=
  find_home_tie_first _ (400000, -750000) (410000, -740000)
    (by decide) (by decide) (by decide) (by decide) (by decide)

/-- C5: on two consecutive valid pings at the same rounded coordinate, the
dwell clock continues exactly when the elapsed seconds are at most
`2 * TSI` minutes: `within_tsi` is true iff the elapsed time is within the
window, the step adds `TSI` to `time_at_loc` in that case and resets it to
0 otherwise, even though the coordinate did not change. -/
theorem sampling_window_boundary (u : String) (home : ℤ × ℤ)
    (aLat aLon : String) (st : SegState) (b : DateTime) (p : Ping) (la lo : ℤ)
    (hla : p.latitude = some la) (hlo : p.longitude = some lo)
    (hsame : is_same_place4 (la, lo) st.prev_latlon = true)
    (hprev : st.prev = some b) :
    (within_tsi b p.stamp = true ↔
      toSecs p.stamp - toSecs b ≤ (TSI : ℤ) * 60 * 2) ∧
    stepUser u home aLat aLon st p =
      Except.ok
        (⟨if toSecs p.stamp - toSecs b ≤ (TSI : ℤ) * 60 * 2 then st.time_at_loc + TSI else 0,
            some p.stamp, st.prev_latlon⟩,
          some ⟨u, p.stamp,
            (if is_same_place4 (la, lo) home then aLat else fmt4 la),
            (if is_same_place4 (la, lo) home then aLon else fmt4 lo),
            if toSecs p.stamp - toSecs b ≤ (TSI : ℤ) * 60 * 2 then st.time_at_loc + TSI else 0⟩) := by
  obtain ⟨plat, plon, pdt⟩ := p
  subst hla
  subst hlo
  refine ⟨by simp [within_tsi], ?_⟩
  simp only [stepUser, hsame, if_true, hprev]
  by_cases hw : toSecs pdt - toSecs b ≤ (TSI : ℤ) * 60 * 2
  · have hwt : within_tsi b pdt = true := by simp [within_tsi, hw]
    simp [hwt, hw]
  · have hwt : within_tsi b pdt = false := by simp [within_tsi, hw]
    simp [hwt, hw]

/-- Witness for C5, at both sides of the boundary: elapsed exactly ten
minutes continues the clock, elapsed ten minutes and one second resets it. -/
theorem sampling_window_boundary_witness :
    ((within_tsi t900 t910 = true ↔ toSecs t910 - toSecs t900 ≤ (TSI : ℤ) * 60 * 2) ∧
      stepUser "u" (0, 0) "a" "b" ⟨5, some t900, (400000, -750000)⟩
          ⟨some 400000, some (-750000), t910⟩ =
        Except.ok
          (⟨if toSecs t910 - toSecs t900 ≤ (TSI : ℤ) * 60 * 2 then 5 + TSI else 0,
              some t910, (400000, -750000)⟩,
            some ⟨"u", t910,
              (if is_same_place4 (400000, -750000) (0, 0) then "a" else fmt4 400000),
              (if is_same_place4 (400000, -750000) (0, 0) then "b" else fmt4 (-750000)),
              if toSecs t910 - toSecs t900 ≤ (TSI : ℤ) * 60 * 2 then 5 + TSI else 0⟩)) ∧
    ((within_tsi t900 t911 = true ↔ toSecs t911 - toSecs t900 ≤ (TSI : ℤ) * 60 * 2) ∧
      stepUser "u" (0, 0) "a" "b" ⟨5, some t900, (400000, -750000)⟩
          ⟨some 400000, some (-750000), t911⟩ =
        Except.ok
          (⟨if toSecs t911 - toSecs t900 ≤ (TSI : ℤ) * 60 * 2 then 5 + TSI else 0,
              some t911, (400000, -750000)⟩,
            some ⟨"u", t911,
              (if is_same_place4 (400000, -750000) (0, 0) then "a" else fmt4 400000),
              (if is_same_place4 (400000, -750000) (0, 0) then "b" else fmt4 (-750000)),
              if toSecs t911 - toSecs t900 ≤ (TSI : ℤ) * 60 * 2 then 5 + TSI else 0⟩)) :=
  ⟨sampling_window_boundary "u" (0, 0) "a" "b" ⟨5, some t900, (400000, -750000)⟩ t900
      ⟨some 400000, some (-750000), t910⟩ 400000 (-750000) rfl rfl (by decide) rfl,
    sampling_window_boundary "u" (0, 0) "a" "b" ⟨5, some t900, (400000, -750000)⟩ t900
      ⟨some 400000, some (-750000), t911⟩ 400000 (-750000) rfl rfl (by decide) rfl⟩

/-- C6: a ping with an empty latitude or longitude produces no output row,
leaves every component of the segmentation state unchanged, and contributes
nothing to the coordinate list that home inference counts. -/
theorem invalid_ping_skipped (u : String) (home : ℤ × ℤ) (aLat aLon : String)
    (st : SegState) (p : Ping) (rest : List Ping)
    (hp : p.latitude = none ∨ p.longitude = none) :
    stepUser u home aLat aLon st p = Except.ok (st, none) ∧
    latlonsOf (p :: rest) = latlonsOf rest := by
  obtain ⟨plat, plon, pdt⟩ := p
  rcases hp with hp | hp
  · subst hp
    cases plon <;> exact ⟨by simp [stepUser], by simp [latlonsOf]⟩
  · subst hp
    cases plat <;> exact ⟨by simp [stepUser], by simp [latlonsOf]⟩

/-- Witness for C6: a ping with empty latitude is skipped whole. -/
theorem invalid_ping_skipped_witness :
    stepUser "u" (0, 0) "a" "b" initState ⟨none, some 5, t900⟩ =
      Except.ok (initState, none) ∧
    latlonsOf [⟨none, some 5, t900⟩, ⟨some 400000, some (-750000), t905⟩] =
      latlonsOf [⟨some 400000, some (-750000), t905⟩] :=
  invalid_ping_skipped "u" (0, 0) "a" "b" initState _ _ (Or.inl rfl)

/-- C7: a history with at least one valid ping always gives `find_home` a
coordinate to return: either the unique mode exists, or the fallback takes
the head of the non-empty valid-coordinate list, so the function never
fails under this precondition. -/
theorem find_home_total (h : List Ping) (hne : latlonsOf h ≠ []) :
    ∃ c, find_home h = some c := by
  cases hm : modeOpt (latlonsOf h) with
  | some m => exact ⟨m, by simp [find_home, hm]⟩
  | none =>
    cases hl : latlonsOf h with
    | nil => exact absurd hl hne
    | cons x xs =>
      rw [hl] at hm
      exact ⟨x, by simp [find_home, hm, hl]⟩

/-- Witness for C7 on a one-ping history. -/
theorem find_home_total_witness :
    ∃ c, find_home [⟨some 400000, some (-750000), t900⟩] = some c :=
  find_home_total _ (by decide)

/-- Python's `abs` commutes with negation. -/
theorem qabs_neg (x : ℚ) : qabs (-x) = qabs x := by
  rw [qabs_eq_abs, qabs_eq_abs, abs_neg]

/-- An integer strictly within one half of a rational is its round half to
even. -/
theorem rhe_eq_of_near (s : ℚ) (m : ℤ) (h : |(m : ℚ) - s| < 1 / 2) : rhe s = m := by
  obtain ⟨h1, h2⟩ := abs_lt.mp h
  rcases le_or_lt (m : ℚ) s with hms | hms
  · have hfloor : ⌊s⌋ = m := Int.floor_eq_iff.mpr ⟨hms, by linarith⟩
    unfold rhe
    rw [hfloor, if_pos (by linarith : s - ((m : ℤ) : ℚ) < 1 / 2)]
  · have hfloor : ⌊s⌋ = m - 1 :=
      Int.floor_eq_iff.mpr ⟨by push_cast; linarith, by push_cast; linarith⟩
    unfold rhe
    rw [hfloor]
    push_cast
    rw [if_neg (by linarith : ¬(s - ((m : ℚ) - 1) < 1 / 2)),
      if_pos (by linarith : (1 : ℚ) / 2 < s - ((m : ℚ) - 1))]
    omega

/-- A representable value strictly within half an ulp of `q` is the
binary64 rounding of `q` (positive normal range). -/
theorem fl_eq_of (q : ℚ) (m e : ℤ) (hq : 0 < q)
    (h1 : (2 : ℚ) ^ e ≤ q) (h2 : q < (2 : ℚ) ^ (e + 1))
    (hnear : |(m : ℚ) * (2 : ℚ) ^ (e - 52) - q| < (2 : ℚ) ^ (e - 53)) :
    fl q = m * (2 : ℚ) ^ (e - 52) := by
  have hb : 1 < 2 := one_lt_two
  have h1c : ((2 : ℕ) : ℚ) ^ e ≤ q := by exact_mod_cast h1
  have h2c : q < ((2 : ℕ) : ℚ) ^ (e + 1) := by exact_mod_cast h2
  have hlog : Int.log 2 q = e := by
    refine le_antisymm ?_ ((Int.zpow_le_iff_le_log hb hq).mp h1c)
    have h3 := (Int.lt_zpow_iff_log_lt hb hq).mp h2c
    omega
  have h2pos : (0 : ℚ) < (2 : ℚ) ^ ((52 : ℤ) - e) := by positivity
  have hscale : |(m : ℚ) - q * (2 : ℚ) ^ ((52 : ℤ) - e)| < 1 / 2 := by
    have hmul := mul_lt_mul_of_pos_right hnear h2pos
    rw [← abs_of_pos h2pos, ← abs_mul, abs_of_pos h2pos] at hmul
    have hz : (e - 52) + ((52 : ℤ) - e) = 0 := by ring
    have ho : (e - 53) + ((52 : ℤ) - e) = -1 := by ring
    have heq : ((m : ℚ) * (2 : ℚ) ^ (e - 52) - q) * (2 : ℚ) ^ ((52 : ℤ) - e) =
        (m : ℚ) - q * (2 : ℚ) ^ ((52 : ℤ) - e) := by
      rw [sub_mul, mul_assoc, ← zpow_add₀ (two_ne_zero : (2 : ℚ) ≠ 0), hz, zpow_zero, mul_one]
    have hexp : (2 : ℚ) ^ ((e : ℤ) - 53) * (2 : ℚ) ^ ((52 : ℤ) - e) = 1 / 2 := by
      rw [← zpow_add₀ (two_ne_zero : (2 : ℚ) ≠ 0), ho]
      norm_num
    rwa [heq, hexp] at hmul
  have hrhe : rhe (q * (2 : ℚ) ^ ((52 : ℤ) - e)) = m := rhe_eq_of_near _ _ hscale
  unfold fl
  rw [if_neg hq.ne', abs_of_pos hq, hlog, if_neg (not_lt.mpr hq.le), hrhe]
  ring

/-- Zero is a fixed point of binary64 rounding. -/
theorem fl_zero : fl 0 = 0 := by
  unfold fl
  simp

/-- Binary64 rounding commutes with negation. -/
theorem fl_neg (q : ℚ) : fl (-q) = -fl q := by
  rcases lt_trichotomy q 0 with hq | hq | hq
  · have hq0 : q ≠ 0 := ne_of_lt hq
    have hnq0 : -q ≠ 0 := neg_ne_zero.mpr hq0
    unfold fl
    rw [if_neg hnq0, if_neg hq0, abs_neg,
      if_neg (not_lt.mpr (by linarith : (0 : ℚ) ≤ -q)), if_pos hq]
    ring
  · subst hq
    rw [neg_zero, fl_zero, neg_zero]
  · have hq0 : q ≠ 0 := ne_of_gt hq
    have hnq0 : -q ≠ 0 := neg_ne_zero.mpr hq0
    unfold fl
    rw [if_neg hnq0, if_neg hq0, abs_neg, if_pos (by linarith : -q < 0),
      if_neg (not_lt.mpr hq.le)]
    ring

/-- The double the literal `.0002` denotes: `0.000200000000000000009643…`. -/
theorem fl_margin : fl (2 / 10000) = 7378697629483821 * (2 : ℚ) ^ (-65 : ℤ) := by
  have h := fl_eq_of (2 / 10000) 7378697629483821 (-13) (by norm_num) (by norm_num)
    (by norm_num) (by rw [abs_lt]; constructor <;> norm_num)
  rw [h]
  norm_num

/-- The margin double is itself representable. -/
theorem fl_margin_fix :
    fl (7378697629483821 * (2 : ℚ) ^ (-65 : ℤ)) = 7378697629483821 * (2 : ℚ) ^ (-65 : ℤ) := by
  have h := fl_eq_of (7378697629483821 * (2 : ℚ) ^ (-65 : ℤ)) 7378697629483821 (-13)
    (by positivity) (by norm_num) (by norm_num) (by rw [abs_lt]; constructor <;> norm_num)
  rw [h]
  norm_num

/-- The double of the coordinate string `"75.0002"`:
`75.0002000000000066…`, strictly above the exact 75.0002. -/
theorem fl_roundA : fl (750002 / 10000) = 5277669887073636 * (2 : ℚ) ^ (-46 : ℤ) := by
  have h := fl_eq_of (750002 / 10000) 5277669887073636 6 (by norm_num) (by norm_num)
    (by norm_num) (by rw [abs_lt]; constructor <;> norm_num)
  rw [h]
  norm_num

/-- The double of the coordinate string `"75.0000"` is exactly 75. -/
theorem fl_seventyfive : fl (750000 / 10000) = 75 := by
  have h := fl_eq_of (750000 / 10000) 5277655813324800 6 (by norm_num) (by norm_num)
    (by norm_num) (by rw [abs_lt]; constructor <;> norm_num)
  rw [h]
  norm_num

/-- The computed double difference `float("75.0002") - float("75.0000")`
is representable, hence returned exactly by the correctly rounded
subtraction; its value `0.000200000000006633…` exceeds the margin double. -/
theorem fl_diff_fix :
    fl (14073748836 * (2 : ℚ) ^ (-46 : ℤ)) = 14073748836 * (2 : ℚ) ^ (-46 : ℤ) := by
  have h := fl_eq_of (14073748836 * (2 : ℚ) ^ (-46 : ℤ)) 7378697629728768 (-13)
    (by positivity) (by norm_num) (by norm_num) (by rw [abs_lt]; constructor <;> norm_num)
  rw [h]
  norm_num

/-- The double of the delta `0.0002001`. -/
theorem fl_2001 : fl (2001 / 10000000) = 7382386978298563 * (2 : ℚ) ^ (-65 : ℤ) := by
  have h := fl_eq_of (2001 / 10000000) 7382386978298563 (-13) (by norm_num) (by norm_num)
    (by norm_num) (by rw [abs_lt]; constructor <;> norm_num)
  rw [h]
  norm_num

/-- The `0.0002001` double is itself representable. -/
theorem fl_2001_fix :
    fl (7382386978298563 * (2 : ℚ) ^ (-65 : ℤ)) = 7382386978298563 * (2 : ℚ) ^ (-65 : ℤ) := by
  have h := fl_eq_of (7382386978298563 * (2 : ℚ) ^ (-65 : ℤ)) 7382386978298563 (-13)
    (by positivity) (by norm_num) (by norm_num) (by rw [abs_lt]; constructor <;> norm_num)
  rw [h]
  norm_num

/-- C8, counterexample: the claim asserts that deltas of exactly 0.0002
between rounded representations compare as the same place, but the
source's double comparison rejects the pair 75.0002 / 75.0000 whose delta
is exactly 0.0002: both strings round up when converted by `float`, their
correctly rounded difference is `0.000200000000006633…`, which exceeds the
margin double `0.000200000000000000009643…`. -/
theorem same_place_boundary_cex :
    (750002 / 10000 : ℚ) - 750000 / 10000 = 2 / 10000 ∧
    is_same_place_float (750002 / 10000, 0) (750000 / 10000, 0) = false := by
  refine ⟨by norm_num, ?_⟩
  have hlat : ¬(qabs (fl (fl (750002 / 10000 : ℚ) - fl (750000 / 10000 : ℚ))) ≤
      fl (2 / 10000)) := by
    rw [fl_roundA, fl_seventyfive]
    have hd : (5277669887073636 : ℚ) * (2 : ℚ) ^ (-46 : ℤ) - 75 =
        14073748836 * (2 : ℚ) ^ (-46 : ℤ) := by norm_num
    rw [hd, fl_diff_fix, fl_margin, qabs_eq_abs, abs_of_pos (by positivity)]
    norm_num
  unfold is_same_place_float
  show (decide (qabs (fl (fl (750002 / 10000 : ℚ) - fl (750000 / 10000 : ℚ))) ≤
        fl (2 / 10000)) &&
      decide (qabs (fl (fl (0 : ℚ) - fl (0 : ℚ))) ≤ fl (2 / 10000))) = false
  rw [decide_eq_false hlat, Bool.false_and]

/-- C8, amended: `is_same_place` is reflexive and symmetric, and compares
the IEEE-double coordinate values against the double nearest 0.0002, so
the boundary is magnitude-dependent: a delta of exactly 0.0002 compares as
the same place at small magnitudes (0.0000 against 0.0002) but as a
different place at larger ones (75.0000 against 75.0002, where the rounded
difference exceeds the margin double); a delta of 0.0002001 compares as a
different place. -/
theorem is_same_place_float_props :
    (∀ a : ℚ × ℚ, is_same_place_float a a = true) ∧
    (∀ a b : ℚ × ℚ, is_same_place_float a b = is_same_place_float b a) ∧
    is_same_place_float (0, 0) (2 / 10000, 0) = true ∧
    is_same_place_float (750000 / 10000, 0) (750002 / 10000, 0) = false ∧
    is_same_place_float (0, 0) (2001 / 10000000, 0) = false := by
  have hq0 : qabs 0 = 0 := by rw [qabs_eq_abs, abs_zero]
  have hmargin_nonneg : (0 : ℚ) ≤ fl (2 / 10000) := by
    rw [fl_margin]
    positivity
  have hlon0 : qabs (fl (fl (0 : ℚ) - fl (0 : ℚ))) ≤ fl (2 / 10000) := by
    rw [fl_zero, sub_self, fl_zero, hq0]
    exact hmargin_nonneg
  refine ⟨?_, ?_, ?_, ?_, ?_⟩
  · intro a
    unfold is_same_place_float
    rw [sub_self, sub_self, fl_zero, hq0, decide_eq_true hmargin_nonneg, Bool.and_self]
  · intro a b
    unfold is_same_place_float
    rw [show fl a.1 - fl b.1 = -(fl b.1 - fl a.1) from by ring,
      show fl a.2 - fl b.2 = -(fl b.2 - fl a.2) from by ring,
      fl_neg, fl_neg, qabs_neg, qabs_neg]
  · have hlat : qabs (fl (fl (0 : ℚ) - fl (2 / 10000 : ℚ))) ≤ fl (2 / 10000) := by
      rw [fl_zero, fl_margin, zero_sub, fl_neg, fl_margin_fix, qabs_neg, qabs_eq_abs,
        abs_of_pos (by positivity)]
    unfold is_same_place_float
    show (decide (qabs (fl (fl (0 : ℚ) - fl (2 / 10000 : ℚ))) ≤ fl (2 / 10000)) &&
        decide (qabs (fl (fl (0 : ℚ) - fl (0 : ℚ))) ≤ fl (2 / 10000))) = true
    rw [decide_eq_true hlat, decide_eq_true hlon0]
    rfl
  · have hlat : ¬(qabs (fl (fl (750000 / 10000 : ℚ) - fl (750002 / 10000 : ℚ))) ≤
        fl (2 / 10000)) := by
      rw [fl_roundA, fl_seventyfive]
      have hd : (75 : ℚ) - 5277669887073636 * (2 : ℚ) ^ (-46 : ℤ) =
          -(14073748836 * (2 : ℚ) ^ (-46 : ℤ)) := by norm_num
      rw [hd, fl_neg, fl_diff_fix, qabs_neg, qabs_eq_abs, abs_of_pos (by positivity),
        fl_margin]
      norm_num
    unfold is_same_place_float
    show (decide (qabs (fl (fl (750000 / 10000 : ℚ) - fl (750002 / 10000 : ℚ))) ≤
          fl (2 / 10000)) &&
        decide (qabs (fl (fl (0 : ℚ) - fl (0 : ℚ))) ≤ fl (2 / 10000))) = false
    rw [decide_eq_false hlat, Bool.false_and]
  · have hlat : ¬(qabs (fl (fl (0 : ℚ) - fl (2001 / 10000000 : ℚ))) ≤ fl (2 / 10000)) := by
      rw [fl_zero, fl_2001, zero_sub, fl_neg, fl_2001_fix, qabs_neg, qabs_eq_abs,
        abs_of_pos (by positivity), fl_margin]
      norm_num
    unfold is_same_place_float
    show (decide (qabs (fl (fl (0 : ℚ) - fl (2001 / 10000000 : ℚ))) ≤ fl (2 / 10000)) &&
        decide (qabs (fl (fl (0 : ℚ) - fl (0 : ℚ))) ≤ fl (2 / 10000))) = false
    rw [decide_eq_false hlat, Bool.false_and]

/-- C9: when the current timestamp is not later than the stored previous
one, the elapsed difference is non-positive, so `within_tsi` is true and
an out-of-order or duplicated timestamp at the same location is always
treated as continuous dwelling: the step adds `TSI` to `time_at_loc` and
never resets it. -/
theorem out_of_order_continuous (u : String) (home : ℤ × ℤ)
    (aLat aLon : String) (st : SegState) (b : DateTime) (p : Ping) (la lo : ℤ)
    (hla : p.latitude = some la) (hlo : p.longitude = some lo)
    (hsame : is_same_place4 (la, lo) st.prev_latlon = true)
    (hprev : st.prev = some b)
    (horder : toSecs p.stamp ≤ toSecs b) :
    within_tsi b p.stamp = true ∧
    stepUser u home aLat aLon st p =
      Except.ok
        (⟨st.time_at_loc + TSI, some p.stamp, st.prev_latlon⟩,
          some ⟨u, p.stamp,
            (if is_same_place4 (la, lo) home then aLat else fmt4 la),
            (if is_same_place4 (la, lo) home then aLon else fmt4 lo),
            st.time_at_loc + TSI⟩) := by
  obtain ⟨plat, plon, pdt⟩ := p
  subst hla
  subst hlo
  have horder2 : toSecs pdt ≤ toSecs b := horder
  have hwt : within_tsi b pdt = true := by
    simp only [within_tsi, decide_eq_true_eq]
    have hT : (TSI : ℤ) * 60 * 2 = 600 := by norm_num [TSI]
    omega
  refine ⟨hwt, ?_⟩
  simp only [stepUser, hsame, if_true, hprev, hwt]

/-- Witness for C9: a duplicated timestamp (elapsed 0) at the stored
location keeps accumulating dwell. -/
theorem out_of_order_continuous_witness :
    within_tsi t910 t900 = true ∧
    stepUser "u" (0, 0) "a" "b" ⟨5, some t910, (400000, -750000)⟩
        ⟨some 400000, some (-750000), t900⟩ =
      Except.ok
        (⟨5 + TSI, some t900, (400000, -750000)⟩,
          some ⟨"u", t900,
            (if is_same_place4 (400000, -750000) (0, 0) then "a" else fmt4 400000),
            (if is_same_place4 (400000, -750000) (0, 0) then "b" else fmt4 (-750000)),
            5 + TSI⟩) :=
  out_of_order_continuous "u" (0, 0) "a" "b" ⟨5, some t910, (400000, -750000)⟩ t910
    ⟨some 400000, some (-750000), t900⟩ 400000 (-750000) rfl rfl (by decide) rfl (by decide)

end Ducktracker
